import Mathlib

/-!
# Verification of the Barbary Coast ULAX sync pipeline

Shallow embedding of the data-acquisition and normalization pipeline of the
repository (src/lib/ulax.ts, src/scripts/sync-calendar.ts, src/scripts/sync-ulax.ts
and the unnamed earlier sync script), together with theorems settling the
frozen claims about it.

Conventions of the embedding:
* JavaScript `Map` and plain objects (`Record<string, T>`) are modelled as
  association lists in insertion order: setting an existing key overwrites it
  in place, setting a fresh key appends at the end — exactly the iteration
  order JS guarantees.
* JSON numbers occurring in this pipeline (ids, scores, years, counters) are
  integers and are modelled as `Int`.
* `Date` values are modelled by their epoch minute count together with the
  host timezone offset (minutes); `new Date("Month D, YYYY")` parses to local
  midnight, and the local component getters add the offset back.
* Effectful fetch results are modelled as values of an `Upstream` record;
  `Effect.option` of a fallible fetch becomes `Option`.
-/

/-- JS `String.prototype.includes`: substring (infix) containment on the
underlying character lists. -/
def listHasInfix (pat : List Char) : List Char → Bool
  | [] => pat.isEmpty
  | c :: rest => pat.isPrefixOf (c :: rest) || listHasInfix pat rest

/-- `s.includes(pat)` from JS. -/
def strContains (s pat : String) : Bool :=
  listHasInfix pat.data s.data

/-- Lookup in an insertion-ordered association list (first occurrence wins,
like JS `Map.get` / property access). -/
def lookupA {α : Type} : List (String × α) → String → Option α
  | [], _ => none
  | (k, v) :: rest, key => if k = key then some v else lookupA rest key

/-- JS `Map.has` / `key in obj`. -/
def containsKeyA {α : Type} (m : List (String × α)) (key : String) : Bool :=
  m.any (fun kv => kv.1 = key)

/-- JS `map.set(key, v)` / `obj[key] = v`: overwrite in place if present,
append at the end otherwise. -/
def setEntryA {α : Type} : List (String × α) → String → α → List (String × α)
  | [], key, v => [(key, v)]
  | (k, w) :: rest, key, v =>
    if k = key then (key, v) :: rest else (k, w) :: setEntryA rest key v

/-- The merge loop of the sync orchestrator: for each entry of `e`, if its
key is not already present in the accumulated map, append it
(`if (!(key in seasons)) seasons[key] = data`). -/
def mergeFoldA {α : Type} (base : List (String × α)) (e : List (String × α)) :
    List (String × α) :=
  e.foldl (fun acc kv => if containsKeyA acc kv.1 then acc else acc ++ [kv]) base

/-- JS `Object.assign(base, upd)`: set every entry of `upd` into `base`. -/
def objAssignA {α : Type} (base upd : List (String × α)) : List (String × α) :=
  upd.foldl (fun acc kv => setEntryA acc kv.1 kv.2) base

/-- The tracked club's name (`BARBARY_COAST` in src/lib/ulax.ts). -/
def BARBARY_COAST : String := "Barbary Coast"

/-- The season union type of src/lib/ulax.ts (`"winter" | "spring" | "summer"`). -/
inductive Season where
  | winter
  | spring
  | summer
deriving DecidableEq

/-- The string value a `Season` literal denotes. -/
def Season.label : Season → String
  | .winter => "winter"
  | .spring => "spring"
  | .summer => "summer"

/-- The `SEASONS` constant of the sync script. -/
def SEASONS : List Season := [.winter, .spring, .summer]

/-- One scheduled or completed game after transformation (`UlaxGame`). -/
structure UlaxGame where
  id : Int
  date : String
  time : String
  field : String
  awayTeam : String
  awayScore : Option Int
  homeTeam : String
  homeScore : Option Int
  gameType : String
  typeName : String
  isBarbaryCoast : Bool
  barbaryCoastIsHome : Option Bool
deriving DecidableEq

/-- One raw, schema-validated game record from the schedule API
(`UlaxGameRaw`). -/
structure UlaxGameRaw where
  id : Int
  gamedate : String
  gametime : String
  field : String
  awayteam : String
  awayscore : Option Int
  hometeam : String
  homescore : Option Int
  gametype : Int
  typename : String
deriving DecidableEq

/-- One team's aggregate record in a season (`UlaxStanding`). -/
structure Standing where
  team : String
  gp : Nat
  w : Nat
  l : Nat
  t : Nat
  pts : Nat
  gf : Int
  ga : Int
deriving DecidableEq

/-- Untyped JSON values as delivered by the schedule API. -/
inductive Json where
  | null
  | bool (b : Bool)
  | num (n : Int)
  | str (s : String)
  | arr (items : List Json)
  | obj (fields : List (String × Json))

/-- Field lookup in a JSON object. -/
def Json.getField : Json → String → Option Json
  | .obj fields, key => lookupA fields key
  | _, _ => none

/-- `ScoreSchema` of src/lib/ulax.ts: the union `number | null | ""`,
decoded by `val === "" ? null : val` into `number | null`.  `some r` is a
successful decode with result `r`; `none` is a schema failure. -/
def decodeScore : Json → Option (Option Int)
  | .num n => some (some n)
  | .null => some none
  | .str s => if s = "" then some none else none
  | _ => none

/-- `Schema.Number` decoding of one field. -/
def decodeNumber : Json → Option Int
  | .num n => some n
  | _ => none

/-- `Schema.String` decoding of one field. -/
def decodeString : Json → Option String
  | .str s => some s
  | _ => none

/-- `Schema.decodeUnknownEither(UlaxGameRaw)`: each declared field must be
present and decode with its field schema; excess properties are ignored
(the Effect default). -/
def decodeUlaxGameRaw (j : Json) : Option UlaxGameRaw := do
  let id ← (j.getField "id").bind decodeNumber
  let gamedate ← (j.getField "gamedate").bind decodeString
  let gametime ← (j.getField "gametime").bind decodeString
  let field ← (j.getField "field").bind decodeString
  let awayteam ← (j.getField "awayteam").bind decodeString
  let awayscore ← (j.getField "awayscore").bind decodeScore
  let hometeam ← (j.getField "hometeam").bind decodeString
  let homescore ← (j.getField "homescore").bind decodeScore
  let gametype ← (j.getField "gametype").bind decodeNumber
  let typename ← (j.getField "typename").bind decodeString
  some ⟨id, gamedate, gametime, field, awayteam, awayscore, hometeam,
        homescore, gametype, typename⟩

/-- Days since the Unix epoch of a civil date (Howard Hinnant's
`days_from_civil`, the arithmetic underlying ECMAScript `Date`). -/
def daysFromCivil (y m d : Int) : Int :=
  let y2 : Int := y - (if m ≤ 2 then 1 else 0)
  let era : Int := Int.fdiv y2 400
  let yoe : Int := y2 - era * 400
  let mp : Int := m + (if 2 < m then -3 else 9)
  let doy : Int := Int.fdiv (153 * mp + 2) 5 + d - 1
  let doe : Int := yoe * 365 + Int.fdiv yoe 4 - Int.fdiv yoe 100 + doy
  era * 146097 + doe - 719468

/-- Civil date of a day count since the Unix epoch (Howard Hinnant's
`civil_from_days`). -/
def civilFromDays (z0 : Int) : Int × Int × Int :=
  let z : Int := z0 + 719468
  let era : Int := Int.fdiv z 146097
  let doe : Int := z - era * 146097
  let yoe : Int :=
    Int.fdiv (doe - Int.fdiv doe 1460 + Int.fdiv doe 36524 - Int.fdiv doe 146096) 365
  let y2 : Int := yoe + era * 400
  let doy : Int := doe - (365 * yoe + Int.fdiv yoe 4 - Int.fdiv yoe 100)
  let mp : Int := Int.fdiv (5 * doy + 2) 153
  let d : Int := doy - Int.fdiv (153 * mp + 2) 5 + 1
  let m : Int := mp + (if mp < 10 then 3 else -9)
  (y2 + (if m ≤ 2 then 1 else 0), m, d)

/-- JS `String.prototype.trim`: drop whitespace from both ends. -/
def strTrim (s : String) : String :=
  String.mk (((s.data.dropWhile Char.isWhitespace).reverse.dropWhile
    Char.isWhitespace).reverse)

/-- Split a character list on spaces (the shape of `"Month D, YYYY"`). -/
def splitOnSpace : List Char → List (List Char)
  | [] => [[]]
  | c :: rest =>
    let r := splitOnSpace rest
    if c = ' ' then [] :: r
    else
      match r with
      | [] => [[c]]
      | w :: ws => (c :: w) :: ws

/-- Parse a non-empty all-digit character list as a number. -/
def digitsToNat : List Char → Option Nat
  | [] => none
  | cs =>
    cs.foldl
      (fun acc c =>
        acc.bind (fun n => if c.isDigit then some (n * 10 + (c.toNat - 48)) else none))
      (some 0)

/-- English month name to 1-based month number, as understood by
`new Date("Month D, YYYY")`. -/
def monthNum : String → Option Int
  | "January" => some 1
  | "February" => some 2
  | "March" => some 3
  | "April" => some 4
  | "May" => some 5
  | "June" => some 6
  | "July" => some 7
  | "August" => some 8
  | "September" => some 9
  | "October" => some 10
  | "November" => some 11
  | "December" => some 12
  | _ => none

/-- Split a long-form `"Month D, YYYY"` date string into its year, month and
day components.  `none` models an input outside that grammar (for which
`new Date` would yield an Invalid Date here). -/
def parseLongDate (s : String) : Option (Int × Int × Int) :=
  match splitOnSpace s.data with
  | [monthWord, dayWord, yearWord] =>
    match dayWord.reverse with
    | ',' :: dayRev => do
      let m ← monthNum (String.mk monthWord)
      let d ← digitsToNat dayRev.reverse
      let y ← digitsToNat yearWord
      some ((y : Int), m, (d : Int))
    | _ => none
  | _ => none

/-- `new Date("Month D, YYYY")` in a host process whose local offset at that
instant is `tz` minutes: the internal value is the epoch minute of local
midnight of that civil date. -/
def dateLocalEpochMin (tz : Int) (y m d : Int) : Int :=
  1440 * daysFromCivil y m d - tz

/-- `getFullYear` / `getMonth`+1 / `getDate` of a `Date` holding epoch minute
`e`, in a host process with local offset `tz` minutes: the civil date of the
local day containing the instant. -/
def epochToLocalYMD (e tz : Int) : Int × Int × Int :=
  civilFromDays (Int.fdiv (e + tz) 1440)

/-- `String(n).padStart(2, "0")`. -/
def pad2 (n : Int) : String :=
  let s := toString n
  if s.length < 2 then "0" ++ s else s

/-- `parseGameDate` of src/lib/ulax.ts, executed in a host process with local
timezone offset `tz` minutes: parse the long-form date with `new Date`, read
the *local* year, month and day back, and format them as `YYYY-MM-DD`.
Inputs outside the long-form grammar give an Invalid Date, whose component
getters are `NaN`. -/
def parseGameDate (tz : Int) (dateStr : String) : String :=
  match parseLongDate dateStr with
  | some (y, m, d) =>
    let (ly, lm, ld) := epochToLocalYMD (dateLocalEpochMin tz y m d) tz
    toString ly ++ "-" ++ pad2 lm ++ "-" ++ pad2 ld
  | none => "NaN-NaN-NaN"

/-- `parseGameType` of src/lib/ulax.ts: 1 maps to playoff, 2 to championship,
everything else to regular. -/
def parseGameType (type : Int) : String :=
  if type = 1 then "playoff"
  else if type = 2 then "championship"
  else "regular"

/-- `transformGame` of src/lib/ulax.ts, parameterized by the host timezone
offset `tz` that `parseGameDate` observes. -/
def transformGame (tz : Int) (raw : UlaxGameRaw) : UlaxGame :=
  let isBarbaryCoast :=
    strContains raw.hometeam BARBARY_COAST || strContains raw.awayteam BARBARY_COAST
  let barbaryCoastIsHome :=
    if isBarbaryCoast then some (strContains raw.hometeam BARBARY_COAST) else none
  { id := raw.id
    date := parseGameDate tz raw.gamedate
    time := raw.gametime
    field := raw.field
    awayTeam := strTrim raw.awayteam
    awayScore := raw.awayscore
    homeTeam := strTrim raw.hometeam
    homeScore := raw.homescore
    gameType := parseGameType raw.gametype
    typeName := raw.typename
    isBarbaryCoast := isBarbaryCoast
    barbaryCoastIsHome := barbaryCoastIsHome }

/-- The record loop of `makeFetchSchedule` (src/lib/ulax.ts): decode each
array element, push the transform of every record that validates, and count
the records that fail (each of which is warned about and skipped).  Returns
the game list and `errorCount`. -/
def processSchedule (tz : Int) (items : List Json) : List UlaxGame × Nat :=
  items.foldl
    (fun acc item =>
      match decodeUlaxGameRaw item with
      | some raw => (acc.1 ++ [transformGame tz raw], acc.2)
      | none => (acc.1, acc.2 + 1))
    ([], 0)

/-- Whether a table's trimmed header-cell texts include every required
header (`requiredHeaders.every((h) => headers.includes(h))`). -/
def tableHasHeaders (requiredHeaders : List String) (thTexts : List String) : Bool :=
  requiredHeaders.all (fun h => (thTexts.map strTrim).contains h)

/-- `findTableWithHeaders` of src/lib/ulax.ts.  A document is modelled by the
list of its tables in document order, each table by the list of its raw
`<th>` texts.  The scan stops at the first table whose trimmed header texts
include all required headers. -/
def findTableWithHeaders (tables : List (List String)) (requiredHeaders : List String) :
    Option (List String) :=
  tables.find? (fun thTexts => tableHasHeaders requiredHeaders thTexts)

/-- The fresh row `{ team, gp: 0, w: 0, l: 0, t: 0, pts: 0, gf: 0, ga: 0 }`
inserted by `standingsFromSchedule` for a team not yet seen. -/
def initStanding (team : String) : Standing :=
  { team := team, gp := 0, w := 0, l := 0, t := 0, pts := 0, gf := 0, ga := 0 }

/-- One side's update in `standingsFromSchedule`: bump games played and
goals, then win/loss/tie counters and points from the score comparison. -/
def updateSide (s : Standing) (gf ga : Int) : Standing :=
  let s1 := { s with gp := s.gp + 1, gf := s.gf + gf, ga := s.ga + ga }
  if ga < gf then { s1 with w := s1.w + 1, pts := s1.pts + 2 }
  else if gf < ga then { s1 with l := s1.l + 1 }
  else { s1 with t := s1.t + 1, pts := s1.pts + 1 }

/-- Current value of a team's row in the accumulating map, or a fresh row
(the `if (!teams.has(team)) teams.set(...)` step). -/
def getOrInit (m : List (String × Standing)) (team : String) : Standing :=
  (lookupA m team).getD (initStanding team)

/-- The body of the game loop of `standingsFromSchedule`: skip the game
unless both scores are known, otherwise update the away side and then the
home side of the accumulating team map. -/
def applyGame (m : List (String × Standing)) (g : UlaxGame) :
    List (String × Standing) :=
  match g.awayScore, g.homeScore with
  | some a, some h =>
    let m1 := setEntryA m g.awayTeam (updateSide (getOrInit m g.awayTeam) a h)
    setEntryA m1 g.homeTeam (updateSide (getOrInit m1 g.homeTeam) h a)
  | _, _ => m

/-- The comparator `(a, b) => b.pts - a.pts || b.gf - b.ga - (a.gf - a.ga)`
read as a non-strict order: `a` may come before `b`. -/
def standingOrder (a b : Standing) : Prop :=
  b.pts < a.pts ∨ (a.pts = b.pts ∧ b.gf - b.ga ≤ a.gf - a.ga)

instance : DecidableRel standingOrder := fun a b => by
  unfold standingOrder; infer_instance

instance : IsTotal Standing standingOrder where
  total a b := by unfold standingOrder; omega

instance : IsTrans Standing standingOrder where
  trans a b c hab hbc := by unfold standingOrder at *; omega

/-- `standingsFromSchedule` of src/scripts/sync-calendar.ts: fold the games
into a team map (insertion-ordered, like the JS `Map`), take the values, and
stable-sort them with the points/goal-differential comparator.  A stable
sort under a total preorder has a unique result, so `insertionSort` produces
exactly what the JS stable `Array.prototype.sort` does. -/
def standingsFromSchedule (games : List UlaxGame) : List Standing :=
  List.insertionSort standingOrder ((games.foldl applyGame []).map Prod.snd)

/-- `BarbaryCoastSeasonSummary` of src/lib/ulax.ts. -/
structure BCSeasonSummary where
  season : String
  wins : Nat
  losses : Nat
  ties : Nat
  goalsFor : Int
  goalsAgainst : Int
  result : String
  isChampion : Bool
deriving DecidableEq

/-- `BarbaryCoastAllTime` of src/lib/ulax.ts. -/
structure BCAllTime where
  wins : Nat
  losses : Nat
  ties : Nat
  titles : Nat
  goalsFor : Int
  goalsAgainst : Int
deriving DecidableEq

/-- `UlaxChampionship` of src/lib/ulax.ts. -/
structure Championship where
  year : Int
  season : Season
  division : String
  champion : String
deriving DecidableEq

/-- `UlaxPlayerStats` of src/lib/ulax.ts. -/
structure PlayerStats where
  name : String
  number : String
  team : String
  gp : Int
  goals : Int
  assists : Int
  points : Int
deriving DecidableEq

/-- `UlaxGoalieStats` of src/lib/ulax.ts.  The float-valued
`savePercentage` field is outside the integer embedding and is elided; no
claim depends on it. -/
structure GoalieStats where
  name : String
  number : String
  team : String
  wins : Int
  losses : Int
  goalsAgainst : Int
  saves : Int
deriving DecidableEq

/-- `UlaxRosterPlayer` of src/lib/ulax.ts (captaincy markers already split
into the two boolean flags). -/
structure RosterPlayer where
  name : String
  number : String
  position : String
  height : String
  weight : String
  age : String
  homeTown : String
  team : String
  isCaptain : Bool
  isAssistantCaptain : Bool
deriving DecidableEq

/-- `UlaxSeasonData`: one season's fetched collections. -/
structure SeasonData where
  schedule : List UlaxGame
  standings : List Standing
  playerStats : List PlayerStats
  goalieStats : List GoalieStats
  roster : List RosterPlayer
deriving DecidableEq

/-- `computeBarbaryCoastSummary` of src/scripts/sync-calendar.ts (identical
in the earlier unnamed sync script): find the club's standings row by
substring match, detect a championship whose champion contains the club name
and whose season label is contained in the season key, and classify. -/
def computeBarbaryCoastSummary (seasonKey : String) (data : SeasonData)
    (championships : List Championship) : Option BCSeasonSummary :=
  match data.standings.find? (fun s => strContains s.team BARBARY_COAST) with
  | none => none
  | some bc =>
    let isChampion := championships.any
      (fun c => strContains c.champion BARBARY_COAST && strContains seasonKey c.season.label)
    let result :=
      if isChampion then "Champions"
      else if bc.l < bc.w then "Playoffs"
      else "Regular Season"
    some
      { season := seasonKey
        wins := bc.w
        losses := bc.l
        ties := bc.t
        goalsFor := bc.gf
        goalsAgainst := bc.ga
        result := result
        isChampion := isChampion }

/-- `computeAllTimeStats` of src/scripts/sync-calendar.ts: sum every
per-season summary, counting a title once per champion flag. -/
def computeAllTimeStats (seasons : List BCSeasonSummary) : BCAllTime :=
  seasons.foldl
    (fun acc s =>
      { wins := acc.wins + s.wins
        losses := acc.losses + s.losses
        ties := acc.ties + s.ties
        titles := acc.titles + (if s.isChampion then 1 else 0)
        goalsFor := acc.goalsFor + s.goalsFor
        goalsAgainst := acc.goalsAgainst + s.goalsAgainst })
    { wins := 0, losses := 0, ties := 0, titles := 0, goalsFor := 0, goalsAgainst := 0 }

/-- The consolidated snapshot (`UlaxAllData` plus the `currentYear`
indicator the current orchestrator writes). -/
structure Snapshot where
  currentSeason : Season
  currentYear : Int
  seasons : List (String × SeasonData)
  championships : List Championship
  bcAllTime : BCAllTime
  bcSeasons : List BCSeasonSummary
  fetchedAt : String
deriving DecidableEq

/-- A fixed upstream dataset, as observed through the fetchers.  `none`
models a failed per-season (or per-archive) fetch. -/
structure Upstream where
  championships : List Championship
  seasonFetch : Season → Option SeasonData
  archiveSchedule : Season → Int → Option (List UlaxGame)

/-- The fixed historical backfill set `BC_ARCHIVE_SEASONS`. -/
def BC_ARCHIVE_SEASONS : List (Season × Int) :=
  [(.spring, 2022), (.spring, 2023), (.spring, 2024), (.summer, 2024),
   (.winter, 2025), (.spring, 2025), (.summer, 2025)]

/-- A season map key: `` `${season}-${year}` ``. -/
def seasonKeyOf (s : Season) (year : Int) : String :=
  s.label ++ "-" ++ toString year

/-- `fetchAllSeasons` of src/scripts/sync-calendar.ts: fetch all three
season types (each via `Effect.option`, so a failure skips that season),
keep the non-empty ones under `season-currentYear` keys. -/
def fetchAllSeasonsM (up : Upstream) (year : Int) : List (String × SeasonData) :=
  SEASONS.filterMap
    (fun s =>
      match up.seasonFetch s with
      | some d =>
        if d.schedule.length ≠ 0 ∨ d.standings.length ≠ 0 then
          some (seasonKeyOf s year, d)
        else none
      | none => none)

/-- The seasons produced by the current run's fetches: the single current
season when `--current-only` (whose fetch failure fails the run: `none`),
otherwise all three season types. -/
def runFetchedSeasons (currentOnly : Bool) (cur : Season) (year : Int)
    (up : Upstream) : Option (List (String × SeasonData)) :=
  if currentOnly then
    (up.seasonFetch cur).map (fun d => [(seasonKeyOf cur year, d)])
  else
    some (fetchAllSeasonsM up year)

/-- `fetchArchiveSeasons`: fetch each backfill pair's schedule (a failure
fails the whole run — the joined fetches are not `Effect.option`ed), and
derive its standings from the schedule. -/
def fetchArchiveSeasonsM (up : Upstream) : Option (List (String × SeasonData)) :=
  BC_ARCHIVE_SEASONS.mapM
    (fun sy => do
      let schedule ← up.archiveSchedule sy.1 sy.2
      some (seasonKeyOf sy.1 sy.2,
        ({ schedule := schedule
           standings := standingsFromSchedule schedule
           playerStats := []
           goalieStats := []
           roster := [] } : SeasonData)))

/-- The `program` of src/scripts/sync-calendar.ts as a function of the run
flags, the clock-derived current season and year, the upstream dataset, the
previously persisted snapshot (`loadExistingData`, with the JSON round trip
taken as the identity) and the run timestamp.  `none` is a fatal run (no
snapshot written).  After the championship and season fetches it either
overlays freshly fetched archive seasons (`Object.assign`) or copies forward
previously persisted seasons whose keys the current run did not produce,
then computes the club summaries and assembles the snapshot. -/
def programRun (currentOnly withArchives : Bool) (cur : Season) (year : Int)
    (up : Upstream) (existing : Option Snapshot) (now : String) :
    Option Snapshot := do
  let championships := up.championships
  let fetched ← runFetchedSeasons currentOnly cur year up
  let seasons ←
    if withArchives then
      (fetchArchiveSeasonsM up).map (fun archive => objAssignA fetched archive)
    else
      some
        (match existing with
         | some ex => mergeFoldA fetched ex.seasons
         | none => fetched)
  let bcSeasons := seasons.filterMap
    (fun kv => computeBarbaryCoastSummary kv.1 kv.2 championships)
  some
    { currentSeason := cur
      currentYear := year
      seasons := seasons
      championships := championships
      bcAllTime := computeAllTimeStats bcSeasons
      bcSeasons := bcSeasons
      fetchedAt := now }

/-- The snapshot shape the earlier unnamed sync script (src/unnamed/part_001)
writes: like `Snapshot` but without a `currentYear` indicator. -/
structure Part001Snapshot where
  currentSeason : Season
  seasons : List (String × SeasonData)
  championships : List Championship
  bcAllTime : BCAllTime
  bcSeasons : List BCSeasonSummary
  fetchedAt : String
deriving DecidableEq

/-- The `program` of the earlier unnamed sync script (src/unnamed/part_001):
same championship and season fetches as the current orchestrator, but season
keys are bare season names, there is no archive backfill, and — decisive for
the merge claim — the previously persisted snapshot is never loaded: the
written snapshot contains exactly the seasons fetched by this run. -/
def part001ProgramRun (currentOnly : Bool) (cur : Season) (up : Upstream)
    (now : String) : Option Part001Snapshot := do
  let championships := up.championships
  let seasons ←
    if currentOnly then
      (up.seasonFetch cur).map (fun d => [(cur.label, d)])
    else
      some (SEASONS.filterMap
        (fun s =>
          match up.seasonFetch s with
          | some d =>
            if d.schedule.length ≠ 0 ∨ d.standings.length ≠ 0 then
              some (s.label, d)
            else none
          | none => none))
  let bcSeasons := seasons.filterMap
    (fun kv => computeBarbaryCoastSummary kv.1 kv.2 championships)
  some
    { currentSeason := cur
      seasons := seasons
      championships := championships
      bcAllTime := computeAllTimeStats bcSeasons
      bcSeasons := bcSeasons
      fetchedAt := now }

/-- `n` spaces of indentation. -/
def spacesN (n : Nat) : String :=
  String.mk (List.replicate n ' ')

/-- JSON string escaping as performed by `JSON.stringify` for the characters
this pipeline produces (quote, backslash and the common control characters). -/
def jsonEscapeChar (c : Char) : String :=
  if c = '"' then "\\\""
  else if c = '\\' then "\\\\"
  else if c = '\n' then "\\n"
  else if c = '\r' then "\\r"
  else if c = '\t' then "\\t"
  else String.mk [c]

/-- A JSON string literal: quote, escape, quote. -/
def jsonQuote (s : String) : String :=
  "\"" ++ String.join (s.data.map jsonEscapeChar) ++ "\""

mutual

/-- `JSON.stringify(v, null, 2)` at nesting indentation `i`: the 2-space
pretty printer used on the persisted snapshot. -/
def jsonStringifyAt : Nat → Json → String
  | _, .null => "null"
  | _, .bool b => if b then "true" else "false"
  | _, .num n => toString n
  | _, .str s => jsonQuote s
  | _, .arr [] => "[]"
  | i, .arr (x :: xs) =>
    "[\n" ++ jsonItemsAt (i + 2) x xs ++ "\n" ++ spacesN i ++ "]"
  | _, .obj [] => "\x7b\x7d"
  | i, .obj ((k, v) :: kvs) =>
    "\x7b\n" ++ jsonPropsAt (i + 2) k v kvs ++ "\n" ++ spacesN i ++ "\x7d"
termination_by _ j => sizeOf j

/-- The comma-and-newline separated array items, each indented. -/
def jsonItemsAt : Nat → Json → List Json → String
  | i, x, [] => spacesN i ++ jsonStringifyAt i x
  | i, x, y :: ys => spacesN i ++ jsonStringifyAt i x ++ ",\n" ++ jsonItemsAt i y ys
termination_by _ x xs => sizeOf x + sizeOf xs

/-- The comma-and-newline separated object properties, each indented. -/
def jsonPropsAt : Nat → String → Json → List (String × Json) → String
  | i, k, v, [] => spacesN i ++ jsonQuote k ++ ": " ++ jsonStringifyAt i v
  | i, k, v, (k2, v2) :: rest =>
    spacesN i ++ jsonQuote k ++ ": " ++ jsonStringifyAt i v ++ ",\n" ++
      jsonPropsAt i k2 v2 rest
termination_by _ _ v rest => sizeOf v + sizeOf rest

end
/-- `JSON.stringify(data, null, 2)`. -/
def jsonStringify (j : Json) : String :=
  jsonStringifyAt 0 j

/-- The file content written by `writeData` of src/scripts/sync-calendar.ts
(both the calendar writer and the consolidated ULAX writer):
`` `${JSON.stringify(data, null, 2)}\n` ``. -/
def writeDataSyncCalendarContent (data : Json) : String :=
  jsonStringify data ++ "\n"

/-- The file content written by `writeData` of the legacy
src/scripts/sync-ulax.ts and of the earlier unnamed sync script
(src/unnamed/part_001): `JSON.stringify(data, null, 2)` with no trailing
newline. -/
def writeDataLegacyContent (data : Json) : String :=
  jsonStringify data

/-- Whether a file content ends in a newline character. -/
def endsWithNewline (s : String) : Bool :=
  s.data.getLast? = some '\n'

/-! ## Concrete fixtures used by witnesses and counterexamples -/

/-- A completed 2-1 away win between two distinct teams. -/
def gameAway21 : UlaxGame :=
  { id := 1, date := "2026-01-11", time := "5:00 pm", field := "Pitch 4",
    awayTeam := "A", awayScore := some 2, homeTeam := "B", homeScore := some 1,
    gameType := "regular", typeName := "Regular Season",
    isBarbaryCoast := false, barbaryCoastIsHome := none }

/-- A 1-1 tie between the same two teams. -/
def gameTie11 : UlaxGame :=
  { gameAway21 with id := 2, awayScore := some 1, homeScore := some 1 }

/-- A 0-3 home win between the same two teams. -/
def gameHome03 : UlaxGame :=
  { gameAway21 with id := 3, awayScore := some 0, homeScore := some 3 }

/-- A not-yet-played game (away score unknown). -/
def gamePending : UlaxGame :=
  { gameAway21 with id := 4, awayScore := none, homeScore := none }

/-- A raw record in which the tracked club is the home team. -/
def rawHomeBC : UlaxGameRaw :=
  { id := 132, gamedate := "January 11, 2026", gametime := "5:00 pm",
    field := "Beach Chalet Fields Pitch #4", awayteam := "Bar Down Boys",
    awayscore := some 4, hometeam := "Barbary Coast", homescore := some 8,
    gametype := 0, typename := "Regular Season" }

/-- A two-table document: the first table lacks the `L` header, the second
has all required headers out of order among extra columns (one padded with
whitespace). -/
def twoTableDoc : List (List String) :=
  [["Team", "GP", "W"], ["Team", " GP ", "L", "W", "Extra"]]

/-- A standings row giving a club a winning record. -/
def standingBC : Standing :=
  { team := "Barbary Coast", gp := 3, w := 2, l := 1, t := 0, pts := 4,
    gf := 10, ga := 5 }

/-- A season whose standings contain only the tracked club's row. -/
def seasonDataBC : SeasonData :=
  { schedule := [], standings := [standingBC], playerStats := [],
    goalieStats := [], roster := [] }

/-- An empty season (no games, no standings). -/
def seasonDataEmpty : SeasonData :=
  { schedule := [], standings := [], playerStats := [], goalieStats := [],
    roster := [] }

/-- An upstream with winter data, spring data, and no summer data. -/
def upstreamWS : Upstream :=
  { championships := []
    seasonFetch := fun s =>
      match s with
      | .winter => some seasonDataEmpty
      | .spring => some seasonDataBC
      | .summer => none
    archiveSchedule := fun _ _ => none }

/-- A raw schedule-API record with the given score JSON values and
well-shaped remaining fields, in upstream field order. -/
def mkScheduleRecord (id : Int) (gamedate gametime field awayteam : String)
    (awayscore : Json) (hometeam : String) (homescore : Json)
    (gametype : Int) (typename : String) : Json :=
  Json.obj
    [("id", Json.num id), ("gamedate", Json.str gamedate),
     ("gametime", Json.str gametime), ("field", Json.str field),
     ("awayteam", Json.str awayteam), ("awayscore", awayscore),
     ("hometeam", Json.str hometeam), ("homescore", homescore),
     ("gametype", Json.num gametype), ("typename", Json.str typename)]

/-- The snapshot a full sync against `upstreamWS` (with no previously
persisted data) produces at timestamp `"t1"`. -/
def snapshotSpring2026 : Snapshot :=
  { currentSeason := .winter
    currentYear := 2026
    seasons := [("spring-2026", seasonDataBC)]
    championships := []
    bcAllTime :=
      { wins := 2, losses := 1, ties := 0, titles := 0, goalsFor := 10,
        goalsAgainst := 5 }
    bcSeasons :=
      [{ season := "spring-2026", wins := 2, losses := 1, ties := 0,
         goalsFor := 10, goalsAgainst := 5, result := "Playoffs",
         isChampion := false }]
    fetchedAt := "t1" }

/-! ## Association-list lemmas -/

theorem lookupA_setEntryA_self {α : Type} (m : List (String × α)) (k : String) (v : α) :
    lookupA (setEntryA m k v) k = some v := by
  induction m with
  | nil => simp [setEntryA, lookupA]
  | cons kv rest ih =>
    obtain ⟨k0, v0⟩ := kv
    by_cases h : k0 = k <;> simp [setEntryA, lookupA, h, ih]

theorem lookupA_setEntryA_ne {α : Type} (m : List (String × α)) (k k2 : String) (v : α)
    (hne : k2 ≠ k) : lookupA (setEntryA m k v) k2 = lookupA m k2 := by
  have hne2 : k ≠ k2 := Ne.symm hne
  induction m with
  | nil => simp [setEntryA, lookupA, hne2]
  | cons kv rest ih =>
    obtain ⟨k0, v0⟩ := kv
    by_cases h : k0 = k
    · subst h
      simp [setEntryA, lookupA, hne2]
    · simp only [setEntryA, if_neg h]
      by_cases h2 : k0 = k2 <;> simp [lookupA, h2, ih]

theorem containsKeyA_append {α : Type} (a b : List (String × α)) (k : String) :
    containsKeyA (a ++ b) k = (containsKeyA a k || containsKeyA b k) := by
  simp [containsKeyA, List.any_append]

theorem lookupA_append_left {α : Type} (a b : List (String × α)) (k : String)
    (h : containsKeyA a k = true) : lookupA (a ++ b) k = lookupA a k := by
  induction a with
  | nil => simp [containsKeyA] at h
  | cons kv rest ih =>
    obtain ⟨k0, v0⟩ := kv
    by_cases hk : k0 = k
    · simp [lookupA, hk]
    · simp [containsKeyA, hk] at h
      simpa [lookupA, hk] using ih (by simpa [containsKeyA] using h)

theorem lookupA_append_right {α : Type} (a b : List (String × α)) (k : String)
    (h : containsKeyA a k = false) : lookupA (a ++ b) k = lookupA b k := by
  induction a with
  | nil => simp
  | cons kv rest ih =>
    obtain ⟨k0, v0⟩ := kv
    simp [containsKeyA, Bool.or_eq_false_iff] at h
    simpa [lookupA, h.1] using ih (by simpa [containsKeyA] using h.2)

theorem containsKeyA_eq_false_lookupA {α : Type} (m : List (String × α)) (k : String)
    (h : containsKeyA m k = false) : lookupA m k = none := by
  induction m with
  | nil => rfl
  | cons kv rest ih =>
    obtain ⟨k0, v0⟩ := kv
    simp [containsKeyA, Bool.or_eq_false_iff] at h
    simpa [lookupA, h.1] using ih (by simpa [containsKeyA] using h.2)

/-! ## Merge-loop lemmas -/

theorem mergeFoldA_nil {α : Type} (base : List (String × α)) :
    mergeFoldA base [] = base := rfl

theorem mergeFoldA_cons {α : Type} (base : List (String × α)) (kv : String × α)
    (e : List (String × α)) :
    mergeFoldA base (kv :: e) =
      mergeFoldA (if containsKeyA base kv.1 then base else base ++ [kv]) e := by
  simp [mergeFoldA, List.foldl_cons]

theorem mergeFoldA_all_present {α : Type} (e : List (String × α)) :
    ∀ base, (∀ kv ∈ e, containsKeyA base kv.1 = true) → mergeFoldA base e = base := by
  induction e with
  | nil => intro base _; rfl
  | cons kv rest ih =>
    intro base h
    rw [mergeFoldA_cons, if_pos (h kv (List.mem_cons_self kv rest))]
    exact ih base (fun kv2 h2 => h kv2 (List.mem_cons_of_mem kv h2))

theorem mergeFoldA_all_fresh {α : Type} (e : List (String × α)) :
    ∀ base, (e.map Prod.fst).Nodup →
      (∀ k ∈ e.map Prod.fst, containsKeyA base k = false) →
      mergeFoldA base e = base ++ e := by
  induction e with
  | nil => intro base _ _; simp [mergeFoldA_nil]
  | cons kv rest ih =>
    intro base hnd hfresh
    rw [List.map_cons] at hnd hfresh
    have hhead : containsKeyA base kv.1 = false :=
      hfresh kv.1 (List.mem_cons_self _ _)
    rw [mergeFoldA_cons, if_neg (by simp [hhead])]
    rw [ih (base ++ [kv]) (List.nodup_cons.mp hnd).2 ?_]
    · simp
    · intro k hk
      have h1 : containsKeyA base k = false := hfresh k (List.mem_cons_of_mem _ hk)
      have h2 : kv.1 ≠ k := fun hkk => (List.nodup_cons.mp hnd).1 (hkk ▸ hk)
      rw [containsKeyA_append, h1]
      simp [containsKeyA, h2]

theorem mergeFoldA_structure {α : Type} (e : List (String × α)) :
    ∀ base, ∃ ext, mergeFoldA base e = base ++ ext ∧
      (ext.map Prod.fst).Nodup ∧
      ∀ k ∈ ext.map Prod.fst, containsKeyA base k = false := by
  induction e with
  | nil => exact fun base => ⟨[], by simp [mergeFoldA_nil]⟩
  | cons kv rest ih =>
    intro base
    by_cases h : containsKeyA base kv.1 = true
    · obtain ⟨ext, h1, h2, h3⟩ := ih base
      exact ⟨ext, by rw [mergeFoldA_cons, if_pos h]; exact h1, h2, h3⟩
    · have hfalse : containsKeyA base kv.1 = false := by simpa using h
      obtain ⟨ext, h1, h2, h3⟩ := ih (base ++ [kv])
      refine ⟨kv :: ext, ?_, ?_, ?_⟩
      · rw [mergeFoldA_cons, if_neg (by simp [hfalse]), h1]
        simp
      · rw [List.map_cons, List.nodup_cons]
        refine ⟨fun hmem => ?_, h2⟩
        have h4 := h3 kv.1 hmem
        rw [containsKeyA_append] at h4
        simp [containsKeyA] at h4
      · intro k hk
        rw [List.map_cons] at hk
        rcases List.mem_cons.mp hk with hk1 | hk2
        · exact hk1 ▸ hfalse
        · have h4 := h3 k hk2
          rw [containsKeyA_append, Bool.or_eq_false_iff] at h4
          exact h4.1

theorem mergeFoldA_idem {α : Type} (base e : List (String × α)) :
    mergeFoldA base (mergeFoldA base e) = mergeFoldA base e := by
  obtain ⟨ext, h1, h2, h3⟩ := mergeFoldA_structure e base
  rw [h1]
  show (base ++ ext).foldl _ base = base ++ ext
  rw [List.foldl_append]
  have hbase : mergeFoldA base base = base :=
    mergeFoldA_all_present base base
      (fun kv hm => by simp [containsKeyA]; exact ⟨kv.2, by simpa using hm⟩)
  calc ext.foldl (fun acc kv => if containsKeyA acc kv.1 then acc else acc ++ [kv])
        (base.foldl (fun acc kv => if containsKeyA acc kv.1 then acc else acc ++ [kv]) base)
      = mergeFoldA (mergeFoldA base base) ext := rfl
    _ = mergeFoldA base ext := by rw [hbase]
    _ = base ++ ext := mergeFoldA_all_fresh ext base h2 h3

theorem lookupA_mergeFoldA_of_contains {α : Type} (e : List (String × α)) :
    ∀ base k, containsKeyA base k = true →
      lookupA (mergeFoldA base e) k = lookupA base k := by
  induction e with
  | nil => intro base k _; rfl
  | cons kv rest ih =>
    intro base k hc
    rw [mergeFoldA_cons]
    by_cases h : containsKeyA base kv.1 = true
    · rw [if_pos h]; exact ih base k hc
    · rw [if_neg h]
      rw [ih (base ++ [kv]) k (by rw [containsKeyA_append, hc]; rfl)]
      exact lookupA_append_left base [kv] k hc

theorem mergeFoldA_preserves_lookup {α : Type} (e : List (String × α)) :
    ∀ base k v, containsKeyA base k = false → lookupA e k = some v →
      lookupA (mergeFoldA base e) k = some v := by
  induction e with
  | nil => intro base k v _ hl; cases hl
  | cons kv rest ih =>
    intro base k v hbase hl
    obtain ⟨k0, v0⟩ := kv
    rw [mergeFoldA_cons]
    by_cases hk : k0 = k
    · subst hk
      have hv : v0 = v := by simpa [lookupA] using hl
      subst hv
      rw [if_neg (by simp [hbase])]
      rw [lookupA_mergeFoldA_of_contains rest (base ++ [(k0, v0)]) k0
        (by rw [containsKeyA_append, hbase]; simp [containsKeyA])]
      rw [lookupA_append_right base [(k0, v0)] k0 hbase]
      simp [lookupA]
    · have hl2 : lookupA rest k = some v := by simpa [lookupA, hk] using hl
      by_cases h : containsKeyA base k0 = true
      · rw [if_pos (by simpa using h)]
        exact ih base k v hbase hl2
      · rw [if_neg (by simpa using h)]
        exact ih (base ++ [(k0, v0)]) k v
          (by rw [containsKeyA_append, hbase]; simp [containsKeyA, hk]) hl2

/-! ## C2: score decoding -/

/-- C2: a raw score field that is the empty string decodes to the unknown
value `null` (here `none`), a numeric score decodes to that number, a `null`
score decodes to unknown, and a record whose score fields are empty strings
decodes successfully (with both scores unknown) — the empty string is never
kept and never causes a per-record parse failure by itself. -/
theorem c2_score_decoding :
    decodeScore (Json.str "") = some none ∧
    (∀ n : Int, decodeScore (Json.num n) = some (some n)) ∧
    decodeScore Json.null = some none ∧
    (∀ (id : Int) (gamedate gametime field awayteam hometeam : String)
       (gametype : Int) (typename : String),
      decodeUlaxGameRaw
          (mkScheduleRecord id gamedate gametime field awayteam (Json.str "")
            hometeam (Json.str "") gametype typename) =
        some
          { id := id, gamedate := gamedate, gametime := gametime,
            field := field, awayteam := awayteam, awayscore := none,
            hometeam := hometeam, homescore := none, gametype := gametype,
            typename := typename }) := by
  refine ⟨rfl, fun n => rfl, rfl, ?_⟩
  intro id gamedate gametime field awayteam hometeam gametype typename
  simp [mkScheduleRecord, decodeUlaxGameRaw, Json.getField, lookupA,
    decodeNumber, decodeString, decodeScore]

/-! ## C3: timezone-invariant date normalization -/

theorem parseGameDate_tz_invariant_aux (tz : Int) (s : String) (y m d : Int)
    (h : parseLongDate s = some (y, m, d)) :
    parseGameDate tz s = parseGameDate 0 s := by
  have hcancel : epochToLocalYMD (dateLocalEpochMin tz y m d) tz =
      epochToLocalYMD (dateLocalEpochMin 0 y m d) 0 := by
    unfold epochToLocalYMD dateLocalEpochMin
    have h1 : 1440 * daysFromCivil y m d - tz + tz = 1440 * daysFromCivil y m d := by
      ring
    have h2 : 1440 * daysFromCivil y m d - 0 + 0 = 1440 * daysFromCivil y m d := by
      ring
    rw [h1, h2]
  unfold parseGameDate
  rw [h]
  dsimp only
  rw [hcancel]

/-- C3: date normalization is timezone-invariant for long-form inputs — two
runs of `parseGameDate` under different host timezone offsets agree on any
input the long-form `"Month D, YYYY"` grammar accepts — and on
`"January 11, 2026"` every run produces exactly `"2026-01-11"`. -/
theorem c3_parse_game_date_tz_invariant :
    (∀ (tz1 tz2 : Int) (s : String) (y m d : Int),
      parseLongDate s = some (y, m, d) →
      parseGameDate tz1 s = parseGameDate tz2 s) ∧
    (∀ tz : Int, parseGameDate tz "January 11, 2026" = "2026-01-11") := by
  constructor
  · intro tz1 tz2 s y m d h
    rw [parseGameDate_tz_invariant_aux tz1 s y m d h,
      parseGameDate_tz_invariant_aux tz2 s y m d h]
  · intro tz
    rw [parseGameDate_tz_invariant_aux tz "January 11, 2026" 2026 1 11 (by decide)]
    decide

/-- Witness for C3 at the concrete long-form input `"January 11, 2026"` and
the offsets of Pacific Standard Time and India Standard Time. -/
theorem c3_parse_game_date_tz_invariant_witness :
    parseLongDate "January 11, 2026" = some (2026, 1, 11) ∧
    parseGameDate (-480) "January 11, 2026" = parseGameDate 330 "January 11, 2026" :=
  ⟨by decide,
   c3_parse_game_date_tz_invariant.1 (-480) 330 "January 11, 2026" 2026 1 11 (by decide)⟩

/-! ## C10: club-participation flags of a transformed game -/

/-- C10: for every raw record (under any host timezone), the transformed
game has `barbaryCoastIsHome = null` exactly when `isBarbaryCoast` is false,
and when the club participates, `barbaryCoastIsHome` is true exactly when
the raw home-team name contains the club's name. -/
theorem c10_barbary_coast_flags (tz : Int) (raw : UlaxGameRaw) :
    ((transformGame tz raw).barbaryCoastIsHome = none ↔
      (transformGame tz raw).isBarbaryCoast = false) ∧
    ((transformGame tz raw).isBarbaryCoast = true →
      ((transformGame tz raw).barbaryCoastIsHome = some true ↔
        strContains raw.hometeam BARBARY_COAST = true)) := by
  unfold transformGame
  by_cases hh : strContains raw.hometeam BARBARY_COAST = true <;>
    by_cases ha : strContains raw.awayteam BARBARY_COAST = true <;>
      simp [hh, ha]

/-- Witness for C10 at a raw record in which the tracked club is the home
team. -/
theorem c10_barbary_coast_flags_witness :
    (transformGame 0 rawHomeBC).barbaryCoastIsHome = some true :=
  ((c10_barbary_coast_flags 0 rawHomeBC).2 (by decide)).mpr (by decide)

/-! ## C5: the table locator -/

/-- C5: the table locator returns the first table in document order whose
trimmed header texts include every required header; header matching is
insensitive to header order and to extra columns (it only consults the set
of trimmed header texts); it returns `null` exactly when no table matches;
and on a two-table document where only the second table carries all required
headers, it selects the second. -/
theorem c5_find_table_with_headers :
    (∀ (tables : List (List String)) (req : List String) (t : List String),
      findTableWithHeaders tables req = some t →
      tableHasHeaders req t = true ∧
      ∃ pre post, tables = pre ++ t :: post ∧
        ∀ t2 ∈ pre, tableHasHeaders req t2 = false) ∧
    (∀ (tables : List (List String)) (req : List String),
      findTableWithHeaders tables req = none ↔
      ∀ t ∈ tables, tableHasHeaders req t = false) ∧
    (∀ (req t u : List String),
      (∀ x ∈ t.map strTrim, x ∈ u.map strTrim) →
      tableHasHeaders req t = true → tableHasHeaders req u = true) ∧
    findTableWithHeaders twoTableDoc ["GP", "W", "L"] =
      some ["Team", " GP ", "L", "W", "Extra"] := by
  refine ⟨?_, ?_, ?_, by decide⟩
  · intro tables req t
    induction tables with
    | nil => intro h; cases h
    | cons t0 rest ih =>
      intro h
      by_cases h0 : tableHasHeaders req t0 = true
      · have : t0 = t := by
          simpa [findTableWithHeaders, List.find?_cons, h0] using h
        subst this
        exact ⟨h0, [], rest, rfl, by intro t2 h2; cases h2⟩
      · have h1 : findTableWithHeaders rest req = some t := by
          simpa [findTableWithHeaders, List.find?_cons,
            (Bool.not_eq_true _).mp h0] using h
        obtain ⟨hsat, pre, post, heq, hpre⟩ := ih h1
        refine ⟨hsat, t0 :: pre, post, by rw [heq, List.cons_append], ?_⟩
        intro t2 h2
        rcases List.mem_cons.mp h2 with h3 | h3
        · exact h3 ▸ (Bool.not_eq_true _).mp h0
        · exact hpre t2 h3
  · intro tables req
    constructor
    · intro h t hmem
      have := List.find?_eq_none.mp h t hmem
      simpa using this
    · intro h
      exact List.find?_eq_none.mpr (fun t hmem => by simp [h t hmem])
  · intro req t u hsub hsat
    unfold tableHasHeaders at *
    rw [List.all_eq_true] at *
    intro x hx
    have := hsat x hx
    rw [List.contains_iff_exists_mem_beq] at this ⊢
    obtain ⟨y, hy, hbeq⟩ := this
    exact ⟨y, hsub y hy, hbeq⟩

/-- Witness for C5 on the two-table document: the selected table satisfies
the requirement, is preceded only by non-matching tables, and a permuted
superset of its headers also satisfies the requirement. -/
theorem c5_find_table_with_headers_witness :
    (tableHasHeaders ["GP", "W", "L"] ["Team", " GP ", "L", "W", "Extra"] = true ∧
      ∃ pre post, twoTableDoc = pre ++ ["Team", " GP ", "L", "W", "Extra"] :: post ∧
        ∀ t2 ∈ pre, tableHasHeaders ["GP", "W", "L"] t2 = false) ∧
    tableHasHeaders ["GP", "W", "L"] ["Extra", "W", "L", "Team", "GP", "More"] = true :=
  ⟨c5_find_table_with_headers.1 twoTableDoc ["GP", "W", "L"]
      ["Team", " GP ", "L", "W", "Extra"] (by decide),
   c5_find_table_with_headers.2.2.1 ["GP", "W", "L"]
      ["Team", " GP ", "L", "W", "Extra"] ["Extra", "W", "L", "Team", "GP", "More"]
      (by decide) (by decide)⟩

/-! ## C6: schedule fetch skips invalid records without aborting -/

theorem processSchedule_foldl_aux (tz : Int) (items : List Json) :
    ∀ (g0 : List UlaxGame) (n0 : Nat),
      items.foldl
          (fun acc item =>
            match decodeUlaxGameRaw item with
            | some raw => (acc.1 ++ [transformGame tz raw], acc.2)
            | none => (acc.1, acc.2 + 1))
          (g0, n0) =
        (g0 ++ items.filterMap (fun it => (decodeUlaxGameRaw it).map (transformGame tz)),
         n0 + (items.filter (fun it => (decodeUlaxGameRaw it).isNone)).length) := by
  induction items with
  | nil => intro g0 n0; simp
  | cons it rest ih =>
    intro g0 n0
    rw [List.foldl_cons]
    cases hdec : decodeUlaxGameRaw it with
    | some raw =>
      dsimp only
      rw [ih (g0 ++ [transformGame tz raw]) n0]
      simp [List.filterMap_cons, List.filter_cons, hdec]
    | none =>
      dsimp only
      rw [ih g0 (n0 + 1)]
      simp [List.filterMap_cons, List.filter_cons, hdec]
      omega

theorem processSchedule_length_aux (tz : Int) (items : List Json) :
    (items.filterMap (fun it => (decodeUlaxGameRaw it).map (transformGame tz))).length +
      (items.filter (fun it => (decodeUlaxGameRaw it).isNone)).length = items.length := by
  induction items with
  | nil => rfl
  | cons it rest ih =>
    rw [List.filterMap_cons, List.filter_cons]
    cases hdec : decodeUlaxGameRaw it <;> simp [hdec] <;> omega

/-- C6: the schedule-record loop returns exactly the transforms of the
records that validate, in input order, together with a count of the records
that were skipped (each warned about, none aborting the batch); the output
length plus the skip count is the input length, so the output is never
longer than the input, and no skipped record contributes an element. -/
theorem c6_process_schedule (tz : Int) (items : List Json) :
    processSchedule tz items =
      (items.filterMap (fun it => (decodeUlaxGameRaw it).map (transformGame tz)),
       (items.filter (fun it => (decodeUlaxGameRaw it).isNone)).length) ∧
    (processSchedule tz items).1.length + (processSchedule tz items).2 =
      items.length ∧
    (processSchedule tz items).1.length ≤ items.length := by
  have hmain : processSchedule tz items =
      (items.filterMap (fun it => (decodeUlaxGameRaw it).map (transformGame tz)),
       (items.filter (fun it => (decodeUlaxGameRaw it).isNone)).length) := by
    unfold processSchedule
    simpa using processSchedule_foldl_aux tz items [] 0
  have hlen := processSchedule_length_aux tz items
  refine ⟨hmain, ?_, ?_⟩
  · rw [hmain]
    exact hlen
  · rw [hmain]
    exact List.length_filterMap_le _ _

/-! ## C1: standings derived from the schedule -/

theorem updateSide_fields (s : Standing) (x y : Int) :
    (updateSide s x y).team = s.team ∧
    (updateSide s x y).gp = s.gp + 1 ∧
    (updateSide s x y).gf = s.gf + x ∧
    (updateSide s x y).ga = s.ga + y ∧
    (updateSide s x y).w = s.w + (if y < x then 1 else 0) ∧
    (updateSide s x y).l = s.l + (if x < y then 1 else 0) ∧
    (updateSide s x y).t = s.t + (if x = y then 1 else 0) ∧
    (updateSide s x y).pts = s.pts + (if y < x then 2 else if x = y then 1 else 0) := by
  unfold updateSide
  split_ifs <;> simp_all <;> omega

theorem foldl_applyGame_filter_aux (games : List UlaxGame) :
    ∀ acc, games.foldl applyGame acc =
      (games.filter (fun g => g.awayScore.isSome && g.homeScore.isSome)).foldl
        applyGame acc := by
  induction games with
  | nil => intro acc; rfl
  | cons g rest ih =>
    intro acc
    cases hA : g.awayScore <;> cases hH : g.homeScore <;>
      simp [List.filter_cons, hA, hH, applyGame, ih]

/-- C1: standings derived from the schedule count only games with both
scores known (dropping incomplete games changes nothing, and a game with an
unknown score leaves the team map untouched); each counted game updates both
participants' games-played, goals-for and goals-against, gives the winner a
win and 2 points, the loser a loss and no points, and on a tie gives each
side a tie and 1 point, leaving all other teams' rows unchanged; and the
returned list is sorted by points descending with ties broken by goal
differential descending. -/
theorem c1_standings_from_schedule :
    (∀ games : List UlaxGame,
      standingsFromSchedule games =
        standingsFromSchedule
          (games.filter (fun g => g.awayScore.isSome && g.homeScore.isSome))) ∧
    (∀ (m : List (String × Standing)) (g : UlaxGame),
      g.awayScore = none ∨ g.homeScore = none → applyGame m g = m) ∧
    (∀ (m : List (String × Standing)) (g : UlaxGame) (a h : Int),
      g.awayScore = some a → g.homeScore = some h → g.awayTeam ≠ g.homeTeam →
      (∃ sa2, lookupA (applyGame m g) g.awayTeam = some sa2 ∧
        sa2.team = (getOrInit m g.awayTeam).team ∧
        sa2.gp = (getOrInit m g.awayTeam).gp + 1 ∧
        sa2.gf = (getOrInit m g.awayTeam).gf + a ∧
        sa2.ga = (getOrInit m g.awayTeam).ga + h ∧
        sa2.w = (getOrInit m g.awayTeam).w + (if h < a then 1 else 0) ∧
        sa2.l = (getOrInit m g.awayTeam).l + (if a < h then 1 else 0) ∧
        sa2.t = (getOrInit m g.awayTeam).t + (if a = h then 1 else 0) ∧
        sa2.pts = (getOrInit m g.awayTeam).pts +
          (if h < a then 2 else if a = h then 1 else 0)) ∧
      (∃ sh2, lookupA (applyGame m g) g.homeTeam = some sh2 ∧
        sh2.team = (getOrInit m g.homeTeam).team ∧
        sh2.gp = (getOrInit m g.homeTeam).gp + 1 ∧
        sh2.gf = (getOrInit m g.homeTeam).gf + h ∧
        sh2.ga = (getOrInit m g.homeTeam).ga + a ∧
        sh2.w = (getOrInit m g.homeTeam).w + (if a < h then 1 else 0) ∧
        sh2.l = (getOrInit m g.homeTeam).l + (if h < a then 1 else 0) ∧
        sh2.t = (getOrInit m g.homeTeam).t + (if h = a then 1 else 0) ∧
        sh2.pts = (getOrInit m g.homeTeam).pts +
          (if a < h then 2 else if h = a then 1 else 0)) ∧
      (∀ k, k ≠ g.awayTeam → k ≠ g.homeTeam →
        lookupA (applyGame m g) k = lookupA m k)) ∧
    (∀ games : List UlaxGame,
      (standingsFromSchedule games).Pairwise
        (fun x y => y.pts < x.pts ∨ (x.pts = y.pts ∧ y.gf - y.ga ≤ x.gf - x.ga))) := by
  refine ⟨?_, ?_, ?_, ?_⟩
  · intro games
    unfold standingsFromSchedule
    rw [foldl_applyGame_filter_aux games []]
  · intro m g hng
    unfold applyGame
    rcases hng with hng | hng
    · rw [hng]
    · rw [hng]
      cases g.awayScore <;> rfl
  · intro m g a h ha hh hne
    have happ : applyGame m g =
        setEntryA (setEntryA m g.awayTeam (updateSide (getOrInit m g.awayTeam) a h))
          g.homeTeam
          (updateSide
            (getOrInit
              (setEntryA m g.awayTeam (updateSide (getOrInit m g.awayTeam) a h))
              g.homeTeam)
            h a) := by
      unfold applyGame
      rw [ha, hh]
    have hm1 : getOrInit
        (setEntryA m g.awayTeam (updateSide (getOrInit m g.awayTeam) a h))
        g.homeTeam = getOrInit m g.homeTeam := by
      unfold getOrInit
      rw [lookupA_setEntryA_ne _ _ _ _ (Ne.symm hne)]
    obtain ⟨ht, hgp, hgf, hga, hw, hl, htie, hpts⟩ :=
      updateSide_fields (getOrInit m g.awayTeam) a h
    obtain ⟨ht2, hgp2, hgf2, hga2, hw2, hl2, htie2, hpts2⟩ :=
      updateSide_fields (getOrInit m g.homeTeam) h a
    refine ⟨⟨updateSide (getOrInit m g.awayTeam) a h, ?_, ht, hgp, hgf, hga, hw, hl,
        htie, hpts⟩,
      ⟨updateSide (getOrInit m g.homeTeam) h a, ?_, ht2, hgp2, hgf2, hga2, hw2, hl2,
        htie2, hpts2⟩, ?_⟩
    · rw [happ, lookupA_setEntryA_ne _ _ _ _ hne, lookupA_setEntryA_self]
    · rw [happ, lookupA_setEntryA_self, hm1]
    · intro k hk1 hk2
      rw [happ, lookupA_setEntryA_ne _ _ _ _ hk2, lookupA_setEntryA_ne _ _ _ _ hk1]
  · intro games
    exact List.sorted_insertionSort standingOrder _

/-- Witness for C1: a completed game with no incomplete fields updates the
away side as specified, and a game with an unknown score is skipped. -/
theorem c1_standings_from_schedule_witness :
    applyGame [] gamePending = [] ∧
    (∃ sa2, lookupA (applyGame [] gameAway21) gameAway21.awayTeam = some sa2 ∧
      sa2.team = (getOrInit [] gameAway21.awayTeam).team ∧
      sa2.gp = (getOrInit [] gameAway21.awayTeam).gp + 1 ∧
      sa2.gf = (getOrInit [] gameAway21.awayTeam).gf + 2 ∧
      sa2.ga = (getOrInit [] gameAway21.awayTeam).ga + 1 ∧
      sa2.w = (getOrInit [] gameAway21.awayTeam).w + (if (1 : Int) < 2 then 1 else 0) ∧
      sa2.l = (getOrInit [] gameAway21.awayTeam).l + (if (2 : Int) < 1 then 1 else 0) ∧
      sa2.t = (getOrInit [] gameAway21.awayTeam).t + (if (2 : Int) = 1 then 1 else 0) ∧
      sa2.pts = (getOrInit [] gameAway21.awayTeam).pts +
        (if (1 : Int) < 2 then 2 else if (2 : Int) = 1 then 1 else 0)) :=
  ⟨c1_standings_from_schedule.2.1 [] gamePending (Or.inl (by decide)),
   (c1_standings_from_schedule.2.2.1 [] gameAway21 2 1 (by decide) (by decide)
      (by decide)).1⟩

/-! ## C7: club season-summary classification -/

/-- C7: whenever the club has a standings row, the summary exists and is
classified `Champions` exactly when some championship record's champion
field contains the club's name and the season key contains that record's
season label — regardless of the win/loss record — otherwise `Playoffs`
when wins exceed losses, otherwise `Regular Season`. -/
theorem c7_summary_classification (seasonKey : String) (data : SeasonData)
    (championships : List Championship) (bc : Standing)
    (hfind : data.standings.find? (fun s => strContains s.team BARBARY_COAST) = some bc) :
    ∃ summ, computeBarbaryCoastSummary seasonKey data championships = some summ ∧
      summ.isChampion = championships.any
        (fun c => strContains c.champion BARBARY_COAST &&
          strContains seasonKey c.season.label) ∧
      (championships.any
          (fun c => strContains c.champion BARBARY_COAST &&
            strContains seasonKey c.season.label) = true →
        summ.result = "Champions") ∧
      (championships.any
          (fun c => strContains c.champion BARBARY_COAST &&
            strContains seasonKey c.season.label) = false →
        bc.l < bc.w → summ.result = "Playoffs") ∧
      (championships.any
          (fun c => strContains c.champion BARBARY_COAST &&
            strContains seasonKey c.season.label) = false →
        ¬bc.l < bc.w → summ.result = "Regular Season") ∧
      summ.wins = bc.w ∧ summ.losses = bc.l ∧ summ.ties = bc.t ∧
      summ.goalsFor = bc.gf ∧ summ.goalsAgainst = bc.ga ∧
      summ.season = seasonKey := by
  unfold computeBarbaryCoastSummary
  rw [hfind]
  refine ⟨_, rfl, rfl, ?_, ?_, ?_, rfl, rfl, rfl, rfl, rfl, rfl⟩
  · intro hch
    simp [hch]
  · intro hch hwl
    simp [hch, hwl]
  · intro hch hwl
    simp [hch, hwl]

/-- Witness for C7: a losing record combined with a matching championship
still classifies as `Champions` (the championship overrides the record). -/
theorem c7_summary_classification_witness :
    ∃ summ,
      computeBarbaryCoastSummary "winter-2025"
          ({ seasonDataEmpty with standings :=
              [{ team := "Barbary Coast", gp := 3, w := 0, l := 3, t := 0,
                 pts := 0, gf := 1, ga := 9 }] })
          [{ year := 2025, season := .winter, division := "Men's Field",
             champion := "Barbary Coast" }] = some summ ∧
      summ.result = "Champions" := by
  obtain ⟨summ, h1, _, h3, _⟩ :=
    c7_summary_classification "winter-2025"
      ({ seasonDataEmpty with standings :=
          [{ team := "Barbary Coast", gp := 3, w := 0, l := 3, t := 0,
             pts := 0, gf := 1, ga := 9 }] })
      [{ year := 2025, season := .winter, division := "Men's Field",
         champion := "Barbary Coast" }]
      { team := "Barbary Coast", gp := 3, w := 0, l := 3, t := 0, pts := 0,
        gf := 1, ga := 9 }
      (by decide)
  exact ⟨summ, h1, h3 (by decide)⟩

/-! ## C4: merge-preserving sync -/

/-- C4 (amended to the current orchestrator): in a sync run of the
src/scripts/sync-calendar.ts orchestrator without archive backfill, every
season entry of the previously persisted snapshot whose key is not among the
keys produced by the current run's fetches is looked up unchanged in the
newly written snapshot.  (The earlier orchestrator preserved in
src/unnamed/part_001 never loads the previous snapshot; see the
counterexample.) -/
theorem c4_merge_preserves_existing (co : Bool) (cur : Season) (year : Int)
    (up : Upstream) (ex : Snapshot) (now : String) (snap : Snapshot)
    (fetched : List (String × SeasonData)) (k : String) (v : SeasonData)
    (hf : runFetchedSeasons co cur year up = some fetched)
    (hk : containsKeyA fetched k = false)
    (hex : lookupA ex.seasons k = some v)
    (hrun : programRun co false cur year up (some ex) now = some snap) :
    lookupA snap.seasons k = some v := by
  unfold programRun at hrun
  rw [hf] at hrun
  simp only [Option.pure_def, Option.bind_eq_bind, Option.some_bind,
    Bool.false_eq_true, if_false] at hrun
  rw [Option.some.injEq] at hrun
  subst hrun
  exact mergeFoldA_preserves_lookup ex.seasons fetched k v hk hex

/-- Witness for C4: a full sync against `upstreamWS` stores the spring
season; a subsequent `--current-only` winter sync still carries it,
unchanged, in the written snapshot. -/
theorem c4_merge_preserves_existing_witness :
    programRun false false Season.winter 2026 upstreamWS none "t1" =
      some snapshotSpring2026 ∧
    ∃ snap,
      programRun true false Season.winter 2026 upstreamWS
          (some snapshotSpring2026) "t2" = some snap ∧
      lookupA snap.seasons "spring-2026" = some seasonDataBC := by
  refine ⟨by decide, ?_⟩
  cases hrun : programRun true false Season.winter 2026 upstreamWS
      (some snapshotSpring2026) "t2" with
  | none => exact absurd hrun (by decide)
  | some snap =>
    exact ⟨snap, rfl,
      c4_merge_preserves_existing true Season.winter 2026 upstreamWS
        snapshotSpring2026 "t2" snap [("winter-2026", seasonDataEmpty)]
        "spring-2026" seasonDataBC (by decide) (by decide) (by decide) hrun⟩

/-- Counterexample to C4 as stated over every sync run of the repository:
the earlier orchestrator (src/unnamed/part_001) performs no merge, so after
a full sync that stored the spring season, its `--current-only` winter run
succeeds yet writes a snapshot in which the spring season is gone. -/
theorem c4_merge_counterexample :
    (∃ prev, part001ProgramRun false Season.winter upstreamWS "t1" = some prev ∧
      lookupA prev.seasons "spring" = some seasonDataBC) ∧
    (∃ snap2, part001ProgramRun true Season.winter upstreamWS "t2" = some snap2 ∧
      lookupA snap2.seasons "spring" = none) := by
  constructor
  · refine ⟨_, rfl, ?_⟩
    decide
  · refine ⟨_, rfl, ?_⟩
    decide

/-! ## C8: idempotence of the sync against a fixed upstream -/

theorem mergeFoldA_self {α : Type} (base : List (String × α)) :
    mergeFoldA base base = base :=
  mergeFoldA_all_present base base
    (fun kv hm => by simp [containsKeyA]; exact ⟨kv.2, by simpa using hm⟩)

/-- C8: against a fixed upstream dataset, with fixed run flags and a fixed
clock-derived current season and year, two consecutive successful sync runs
(the second reading back the snapshot the first wrote) produce identical
snapshots except for the fetch timestamp: seasons mapping (including key
order), championships, summaries and current-season indicators all agree. -/
theorem c8_sync_idempotent (co wa : Bool) (cur : Season) (year : Int)
    (up : Upstream) (e0 : Option Snapshot) (t1 t2 : String) (s1 s2 : Snapshot)
    (hrun1 : programRun co wa cur year up e0 t1 = some s1)
    (hrun2 : programRun co wa cur year up (some s1) t2 = some s2) :
    s2 = { s1 with fetchedAt := t2 } := by
  unfold programRun at hrun1 hrun2
  cases hf : runFetchedSeasons co cur year up with
  | none =>
    rw [hf] at hrun1
    simp only [Option.pure_def, Option.bind_eq_bind, Option.none_bind] at hrun1
    cases hrun1
  | some fetched =>
    rw [hf] at hrun1 hrun2
    simp only [Option.pure_def, Option.bind_eq_bind, Option.some_bind] at hrun1 hrun2
    cases wa with
    | true =>
      rw [if_pos rfl] at hrun1 hrun2
      cases ha : fetchArchiveSeasonsM up with
      | none =>
        rw [ha] at hrun1
        simp only [Option.map_none', Option.none_bind] at hrun1
        cases hrun1
      | some archive =>
        rw [ha] at hrun1 hrun2
        simp only [Option.map_some', Option.some_bind,
          Option.some.injEq] at hrun1 hrun2
        rw [← hrun2, ← hrun1]
    | false =>
      simp only [Bool.false_eq_true, if_false, Option.some_bind,
        Option.some.injEq] at hrun1 hrun2
      cases e0 with
      | none =>
        rw [← hrun1] at hrun2
        dsimp only at hrun2
        rw [mergeFoldA_self] at hrun2
        rw [← hrun2, ← hrun1]
      | some ex =>
        rw [← hrun1] at hrun2
        dsimp only at hrun2
        rw [mergeFoldA_idem] at hrun2
        rw [← hrun2, ← hrun1]

/-- Witness for C8: two consecutive runs against `upstreamWS`; the second
run's snapshot is the first's with only the timestamp replaced. -/
theorem c8_sync_idempotent_witness :
    ∃ s2, programRun false false Season.winter 2026 upstreamWS
        (some snapshotSpring2026) "t2" = some s2 ∧
      s2 = { snapshotSpring2026 with fetchedAt := "t2" } := by
  cases h2 : programRun false false Season.winter 2026 upstreamWS
      (some snapshotSpring2026) "t2" with
  | none => exact absurd h2 (by decide)
  | some s2 =>
    exact ⟨s2, rfl,
      c8_sync_idempotent false false Season.winter 2026 upstreamWS none "t1" "t2"
        snapshotSpring2026 s2 (by decide) h2⟩

/-! ## C9: persisted snapshot file format -/

/-- C9 (amended): the writers in src/scripts/sync-calendar.ts persist the
2-space pretty-printed JSON serialization followed by a trailing newline,
but the legacy src/scripts/sync-ulax.ts writer and the earlier unnamed sync
script's writer persist the same pretty-printed JSON with no trailing
newline appended.  The last conjunct pins down the 2-space indentation of
the serializer on a concrete value. -/
theorem c9_snapshot_file_format (d : Json) :
    writeDataSyncCalendarContent d = jsonStringify d ++ "\n" ∧
    endsWithNewline (writeDataSyncCalendarContent d) = true ∧
    writeDataLegacyContent d = jsonStringify d ∧
    jsonStringify (Json.obj [("a", Json.num 1), ("b", Json.arr [Json.null])]) =
      "\x7b\n  \"a\": 1,\n  \"b\": [\n    null\n  ]\n\x7d" := by
  refine ⟨rfl, ?_, rfl, ?_⟩
  · unfold writeDataSyncCalendarContent endsWithNewline
    rw [String.data_append, decide_eq_true_eq]
    show ((jsonStringify d).data ++ ['\n']).getLast? = some '\n'
    rw [List.getLast?_concat]
  · simp [jsonStringify, jsonStringifyAt, jsonItemsAt, jsonPropsAt, jsonQuote,
      jsonEscapeChar, spacesN]
    decide

/-- Counterexample to C9 as stated over every sync run: the legacy writer's
file content for a concrete snapshot value is not the pretty serialization
followed by a newline — it does not end in a newline at all. -/
theorem c9_snapshot_file_format_counterexample :
    writeDataLegacyContent (Json.obj []) ≠
      jsonStringify (Json.obj []) ++ "\n" ∧
    endsWithNewline (writeDataLegacyContent (Json.obj [])) = false := by
  constructor
  · unfold writeDataLegacyContent
    simp only [jsonStringify, jsonStringifyAt]
    decide
  · unfold writeDataLegacyContent endsWithNewline
    simp only [jsonStringify, jsonStringifyAt]
    decide
